import Mathlib

/-!
Verification of the filtered, cached intelligence query + derived-view
pipeline of the imagery-intelligence dashboard
(`nga_imagery_intelligence_app.py`).

The shallow embedding below translates the data model and the operations
of the source into Lean:

* `ImageRow` / `filtered_df` — the sidebar Filter Engine (source lines
  405-472): a pandas boolean-mask filter over the imagery-metadata table.
  Timestamps (`CAPTURE_DATE` after `pd.to_datetime`) are modelled as whole
  seconds (`Int`); calendar dates as whole day numbers, a date `d`
  converting to the midnight timestamp `d * 86400` exactly as
  `pd.Timestamp(date)` does; floating-point quality scores are modelled as
  exact rationals (the filter only compares them, so the ordering is all
  that matters).
* the Result Cache (`@st.cache_data(ttl=300)` on the fetchers, lines
  271-343) — the decorator's semantics live in the Streamlit library, not
  in this repository, so the cache is modelled from the spec's contract.
* `process_cortex_response` / `call_cortex_analyst` (lines 1349-1461) —
  the External Query Proxy, with the HTTP transport abstracted as an
  explicit outcome value.
* `get_s3_presigned_url` (lines 345-358) — with the warehouse call
  abstracted as an explicit query-result value.
-/

namespace NGA

/-- A row of the imagery-metadata table (`silver_imagery_metadata_iceberg`),
restricted to the columns the sidebar filter reads.  `capture_date` is the
`CAPTURE_DATE` column after `pd.to_datetime`, a timestamp in whole seconds;
`combined_quality_score` is the `COMBINED_QUALITY_SCORE` column as an exact
rational. -/
structure ImageRow where
  image_id : Nat
  capture_date : Int
  sensor_category : String
  combined_quality_score : Rat
deriving DecidableEq, Repr

/-- One day in seconds: the length of the `pd.Timedelta(days=1)` the source
adds to the end date. -/
def secondsPerDay : Int := 86400

/-- `pd.Timestamp(d)` for a calendar date `d` (a whole day number): the
midnight timestamp of that day. -/
def pandasTimestamp (d : Int) : Int := d * secondsPerDay

/-- The calendar date of a timestamp (`.date()` on a pandas timestamp):
floor division by the length of a day.  `/` on `Int` is Euclidean division,
which is floor division for the positive divisor used here. -/
def captureDay (ts : Int) : Int := ts / secondsPerDay

/-- The value of the sidebar `date_range` widget as the source inspects it
(line 450): a tuple that may have fewer than two entries, and whose entries
may be null.  Dates are whole day numbers. -/
inductive DateInput where
  | pair (a b : Option Int)
  | shorter (a : Option Int)
deriving DecidableEq, Repr

/-- The validity check of source line 450: `isinstance(date_range, tuple)
and len(date_range) >= 2 and date_range[0] is not None and date_range[1] is
not None`, yielding the two bounds exactly when it passes. -/
def dateRangeValid : DateInput → Option (Int × Int)
  | .pair (some a) (some b) => some (a, b)
  | _ => none

/-- The Filter Engine (source lines 448-467): on a valid date range, keep
rows with `start_date ≤ CAPTURE_DATE ≤ end_date` where `end_date` is the
end date's midnight plus one day minus one second, and in every case
require `SENSOR_CATEGORY ∈ sensor_filter` and
`COMBINED_QUALITY_SCORE ≥ quality_threshold`; on an invalid date range the
date predicate is dropped.  `reset_index(drop=True)` keeps the rows in
their original order, which `List.filter` does by construction. -/
def filtered_df (imagery_df : List ImageRow) (date_range : DateInput)
    (sensor_filter : List String) (quality_threshold : Rat) : List ImageRow :=
  match dateRangeValid date_range with
  | some (d0, d1) =>
      let start_date := pandasTimestamp d0
      let end_date := pandasTimestamp d1 + secondsPerDay - 1
      imagery_df.filter fun r =>
        decide (start_date ≤ r.capture_date) &&
        decide (r.capture_date ≤ end_date) &&
        sensor_filter.contains r.sensor_category &&
        decide (quality_threshold ≤ r.combined_quality_score)
  | none =>
      imagery_df.filter fun r =>
        sensor_filter.contains r.sensor_category &&
        decide (quality_threshold ≤ r.combined_quality_score)

/-- `imagery_df['CAPTURE_DATE'].min()` (source line 415): the least capture
timestamp of a non-empty table (`0` on the empty table, unused there). -/
def minCaptureTs : List ImageRow → Int
  | [] => 0
  | r :: rs => rs.foldl (fun acc x => min acc x.capture_date) r.capture_date

/-- `imagery_df['CAPTURE_DATE'].max()` (source line 416): the greatest
capture timestamp of a non-empty table (`0` on the empty table, unused
there). -/
def maxCaptureTs : List ImageRow → Int
  | [] => 0
  | r :: rs => rs.foldl (fun acc x => max acc x.capture_date) r.capture_date

/-- The three rows of the spec's worked example: quality scores 95, 82 and
61, all on the same day and of the same sensor category. -/
def exampleRows : List ImageRow :=
  [⟨1, 100, "Electro-Optical", 95⟩,
   ⟨2, 200, "Electro-Optical", 82⟩,
   ⟨3, 300, "Electro-Optical", 61⟩]

section DayArithmetic

theorem le_secondsPerDay_pos : (0 : Int) < secondsPerDay := by decide

/-- A timestamp is at or after the midnight of day `d` exactly when its
calendar date is at or after `d`. -/
theorem pandasTimestamp_le_iff (d ts : Int) :
    pandasTimestamp d ≤ ts ↔ d ≤ captureDay ts := by
  unfold pandasTimestamp captureDay
  exact (Int.le_ediv_iff_mul_le le_secondsPerDay_pos).symm

/-- A timestamp is at or before the last second of day `d` exactly when its
calendar date is at or before `d`. -/
theorem le_day_end_iff (d ts : Int) :
    ts ≤ pandasTimestamp d + secondsPerDay - 1 ↔ captureDay ts ≤ d := by
  unfold pandasTimestamp captureDay
  rw [show d * secondsPerDay + secondsPerDay - 1 = (d + 1) * secondsPerDay - 1 by ring]
  rw [Int.le_sub_one_iff, ← Int.ediv_lt_iff_lt_mul le_secondsPerDay_pos]
  exact Int.lt_add_one_iff

theorem captureDay_mono {a b : Int} (h : a ≤ b) : captureDay a ≤ captureDay b :=
  Int.ediv_le_ediv le_secondsPerDay_pos h

end DayArithmetic

section MinMaxBounds

theorem foldl_min_le (l : List ImageRow) (a : Int) :
    l.foldl (fun acc x => min acc x.capture_date) a ≤ a ∧
    ∀ x ∈ l, l.foldl (fun acc x => min acc x.capture_date) a ≤ x.capture_date := by
  induction l generalizing a with
  | nil => simp
  | cons y ys ih =>
    refine ⟨le_trans (ih (min a y.capture_date)).1 (min_le_left _ _), ?_⟩
    intro x hx
    rcases List.mem_cons.mp hx with rfl | hx
    · exact le_trans (ih (min a x.capture_date)).1 (min_le_right _ _)
    · exact (ih (min a y.capture_date)).2 x hx

theorem le_foldl_max (l : List ImageRow) (a : Int) :
    a ≤ l.foldl (fun acc x => max acc x.capture_date) a ∧
    ∀ x ∈ l, x.capture_date ≤ l.foldl (fun acc x => max acc x.capture_date) a := by
  induction l generalizing a with
  | nil => simp
  | cons y ys ih =>
    refine ⟨le_trans (le_max_left _ _) (ih (max a y.capture_date)).1, ?_⟩
    intro x hx
    rcases List.mem_cons.mp hx with rfl | hx
    · exact le_trans (le_max_right _ _) (ih (max a x.capture_date)).1
    · exact (ih (max a y.capture_date)).2 x hx

theorem minCaptureTs_le {rows : List ImageRow} {x : ImageRow} (hx : x ∈ rows) :
    minCaptureTs rows ≤ x.capture_date := by
  cases rows with
  | nil => cases hx
  | cons r rs =>
    rcases List.mem_cons.mp hx with rfl | h
    · exact (foldl_min_le rs x.capture_date).1
    · exact (foldl_min_le rs r.capture_date).2 x h

theorem le_maxCaptureTs {rows : List ImageRow} {x : ImageRow} (hx : x ∈ rows) :
    x.capture_date ≤ maxCaptureTs rows := by
  cases rows with
  | nil => cases hx
  | cons r rs =>
    rcases List.mem_cons.mp hx with rfl | h
    · exact (le_foldl_max rs x.capture_date).1
    · exact (le_foldl_max rs r.capture_date).2 x h

end MinMaxBounds

end NGA

namespace NGA

/-- C1: For every input table and every FilterCriteria (date interval
`[start, end]` as whole dates, accepted category set, quality threshold),
the Filter Engine returns exactly the rows whose capture date lies in
`[start, end]`, whose sensor category is a member of the accepted set, and
whose combined quality score is at least the threshold; in particular, for
rows with quality scores 95, 82, 61 and threshold 80 (date and category
predicates satisfied by all three), it returns the first two rows only. -/
theorem filterEngine_exact :
    (∀ (rows : List ImageRow) (d0 d1 : Int) (cats : List String) (q : Rat),
      filtered_df rows (.pair (some d0) (some d1)) cats q =
        rows.filter fun r =>
          decide (d0 ≤ captureDay r.capture_date) &&
          decide (captureDay r.capture_date ≤ d1) &&
          cats.contains r.sensor_category &&
          decide (q ≤ r.combined_quality_score)) ∧
    filtered_df exampleRows (.pair (some 0) (some 0)) ["Electro-Optical"] 80 =
      [⟨1, 100, "Electro-Optical", 95⟩, ⟨2, 200, "Electro-Optical", 82⟩] := by
  constructor
  · intro rows d0 d1 cats q
    simp only [filtered_df, dateRangeValid]
    refine List.filter_congr ?_
    intro x _
    rw [show decide (pandasTimestamp d0 ≤ x.capture_date) =
          decide (d0 ≤ captureDay x.capture_date) from
        decide_eq_decide.mpr (pandasTimestamp_le_iff d0 x.capture_date),
      show decide (x.capture_date ≤ pandasTimestamp d1 + secondsPerDay - 1) =
          decide (captureDay x.capture_date ≤ d1) from
        decide_eq_decide.mpr (le_day_end_iff d1 x.capture_date)]
  · decide

/-- C2: For every input table and criteria, the Filter Engine's output is a
subsequence of the input: every output row appears in the input, no row is
duplicated, and relative order is preserved (`List.Sublist`).  Determinism
in `(QueryResult, FilterCriteria)` holds by construction: `filtered_df` is
a pure function of exactly those arguments. -/
theorem filterEngine_sublist (rows : List ImageRow) (dr : DateInput)
    (cats : List String) (q : Rat) :
    (filtered_df rows dr cats q).Sublist rows := by
  unfold filtered_df
  rcases dateRangeValid dr with _ | ⟨d0, d1⟩
  · exact List.filter_sublist rows
  · exact List.filter_sublist rows

/-- C3: With an empty accepted-category set the Filter Engine returns zero
rows, whatever the date interval and quality threshold. -/
theorem filterEngine_empty_categories (rows : List ImageRow) (dr : DateInput)
    (q : Rat) :
    filtered_df rows dr [] q = [] := by
  unfold filtered_df
  rcases dateRangeValid dr with _ | ⟨d0, d1⟩ <;>
    simp [List.filter_eq_nil_iff, List.contains]

/-- C4: When the supplied date bounds are missing or invalid (not a pair of
two non-null dates), the Filter Engine falls back to the full min/max date
range observed in the table: filtering without the date predicate equals
filtering with the interval from the table's least to its greatest capture
date, with the category and quality predicates still applied.  (The
embedding is total, so no exception is raised.) -/
theorem filterEngine_invalid_dates_fallback (rows : List ImageRow)
    (di : DateInput) (cats : List String) (q : Rat)
    (hdi : dateRangeValid di = none) (_hne : rows ≠ []) :
    filtered_df rows di cats q =
      filtered_df rows
        (.pair (some (captureDay (minCaptureTs rows)))
               (some (captureDay (maxCaptureTs rows)))) cats q := by
  unfold filtered_df
  rw [hdi]
  simp only [dateRangeValid]
  refine List.filter_congr ?_
  intro x hx
  have h1 : decide (pandasTimestamp (captureDay (minCaptureTs rows)) ≤ x.capture_date)
      = true :=
    decide_eq_true ((pandasTimestamp_le_iff _ _).mpr (captureDay_mono (minCaptureTs_le hx)))
  have h2 : decide (x.capture_date ≤
      pandasTimestamp (captureDay (maxCaptureTs rows)) + secondsPerDay - 1) = true :=
    decide_eq_true ((le_day_end_iff _ _).mpr (captureDay_mono (le_maxCaptureTs hx)))
  rw [h1, h2]
  simp

/-- Witness for C4 at a concrete invalid date input and a concrete table. -/
theorem filterEngine_invalid_dates_fallback_witness :
    dateRangeValid (.shorter none) = none ∧ exampleRows ≠ [] ∧
    filtered_df exampleRows (.shorter none) ["Electro-Optical"] 80 =
      filtered_df exampleRows
        (.pair (some (captureDay (minCaptureTs exampleRows)))
               (some (captureDay (maxCaptureTs exampleRows)))) ["Electro-Optical"] 80 :=
  ⟨rfl, by decide,
    filterEngine_invalid_dates_fallback exampleRows (.shorter none)
      ["Electro-Optical"] 80 rfl (by decide)⟩

/-- C9: With valid whole-date bounds `(d0, d1)`, the effective upper bound
is the end date's midnight plus one day minus one second, so a row whose
capture timestamp falls at any time of day on the end date `d1` (and meets
the other predicates) is retained. -/
theorem filterEngine_end_day_inclusive (rows : List ImageRow) (d0 d1 : Int)
    (cats : List String) (q : Rat) (r : ImageRow) (hr : r ∈ rows)
    (hstart : pandasTimestamp d0 ≤ r.capture_date)
    (hday : captureDay r.capture_date = d1)
    (hcat : cats.contains r.sensor_category = true)
    (hq : q ≤ r.combined_quality_score) :
    r ∈ filtered_df rows (.pair (some d0) (some d1)) cats q := by
  unfold filtered_df
  simp only [dateRangeValid]
  refine List.mem_filter.mpr ⟨hr, ?_⟩
  have hend : r.capture_date ≤ pandasTimestamp d1 + secondsPerDay - 1 :=
    (le_day_end_iff d1 r.capture_date).mpr (le_of_eq hday)
  have hmem : r.sensor_category ∈ cats := by simpa using hcat
  simp [hstart, hend, hmem, hq]

/-- Witness for C9: a row captured at the last second of the end day
(timestamp 86399, i.e. 23:59:59 of day 0) is retained. -/
theorem filterEngine_end_day_inclusive_witness :
    pandasTimestamp 0 ≤ (86399 : Int) ∧ captureDay 86399 = 0 ∧
    (⟨1, 86399, "Electro-Optical", 95⟩ : ImageRow) ∈
      filtered_df [⟨1, 86399, "Electro-Optical", 95⟩]
        (.pair (some 0) (some 0)) ["Electro-Optical"] 80 :=
  ⟨by decide, by decide,
    filterEngine_end_day_inclusive [⟨1, 86399, "Electro-Optical", 95⟩] 0 0
      ["Electro-Optical"] 80 ⟨1, 86399, "Electro-Optical", 95⟩
      (by decide) (by decide) (by decide) (by decide) (by decide)⟩

end NGA

namespace NGA

/-- A cache entry of the Result Cache: the memoised result and the time it
was fetched.  Times are whole seconds (`Nat`). -/
structure CacheEntry (α : Type) where
  result : α
  fetchTime : Nat
deriving DecidableEq, Repr

/-- The Result Cache state: entries keyed by query identity. -/
abbrev CacheState (α : Type) := List (String × CacheEntry α)

/-- Modelled from the spec: the Result Cache contract of the
`@st.cache_data(ttl=300)` decorator on the fetchers (source lines 271, 303,
322) — the decorator's implementation is Streamlit library code, absent
from this repository.  `get_or_fetch` at current time `now` returns the
cached result when the entry's age is less than `ttl`; otherwise it invokes
`fetch_fn`, stores the result on success and returns it; when `fetch_fn`
fails, no entry is written and the error propagates.  The third component
counts the invocations of `fetch_fn` made by this call. -/
def get_or_fetch {α ε : Type} (cache : CacheState α) (now : Nat)
    (query_id : String) (fetch_fn : Unit → Except ε α) (ttl : Nat) :
    Except ε α × CacheState α × Nat :=
  match cache.lookup query_id with
  | some entry =>
      if now - entry.fetchTime < ttl then (.ok entry.result, cache, 0)
      else
        match fetch_fn () with
        | .ok v => (.ok v, (query_id, ⟨v, now⟩) :: cache, 1)
        | .error e => (.error e, cache, 1)
  | none =>
      match fetch_fn () with
      | .ok v => (.ok v, (query_id, ⟨v, now⟩) :: cache, 1)
      | .error e => (.error e, cache, 1)

/-- C5: `get_or_fetch` returns the cached result (invoking no fetch) when
the entry's age is under `ttl`; on a miss or a stale entry it invokes the
fetch, stores the result and returns it; consequently two calls with the
same query identity within one ttl window invoke the fetch exactly once in
total and both return the fetched value, and a call after ttl expiry
invokes the fetch again. -/
theorem cache_get_or_fetch_contract {α ε : Type} :
    (∀ (cache : CacheState α) (now : Nat) (qid : String)
        (fetch_fn : Unit → Except ε α) (ttl : Nat) (entry : CacheEntry α),
      cache.lookup qid = some entry → now - entry.fetchTime < ttl →
      get_or_fetch cache now qid fetch_fn ttl = (.ok entry.result, cache, 0)) ∧
    (∀ (cache : CacheState α) (now : Nat) (qid : String)
        (fetch_fn : Unit → Except ε α) (ttl : Nat) (v : α),
      (∀ entry, cache.lookup qid = some entry → ¬ now - entry.fetchTime < ttl) →
      fetch_fn () = .ok v →
      get_or_fetch cache now qid fetch_fn ttl = (.ok v, (qid, ⟨v, now⟩) :: cache, 1)) ∧
    (∀ (now1 now2 : Nat) (qid : String) (fetch_fn : Unit → Except ε α)
        (ttl : Nat) (v : α),
      fetch_fn () = .ok v → now2 - now1 < ttl →
      (get_or_fetch ([] : CacheState α) now1 qid fetch_fn ttl).2.2 +
        (get_or_fetch (get_or_fetch ([] : CacheState α) now1 qid fetch_fn ttl).2.1
          now2 qid fetch_fn ttl).2.2 = 1 ∧
      (get_or_fetch (get_or_fetch ([] : CacheState α) now1 qid fetch_fn ttl).2.1
        now2 qid fetch_fn ttl).1 = .ok v) ∧
    (∀ (now1 now2 : Nat) (qid : String) (fetch_fn : Unit → Except ε α)
        (ttl : Nat) (v : α),
      fetch_fn () = .ok v → ttl ≤ now2 - now1 →
      (get_or_fetch (get_or_fetch ([] : CacheState α) now1 qid fetch_fn ttl).2.1
        now2 qid fetch_fn ttl).2.2 = 1) := by
  have hit : ∀ (cache : CacheState α) (now : Nat) (qid : String)
      (fetch_fn : Unit → Except ε α) (ttl : Nat) (entry : CacheEntry α),
      cache.lookup qid = some entry → now - entry.fetchTime < ttl →
      get_or_fetch cache now qid fetch_fn ttl = (.ok entry.result, cache, 0) := by
    intro cache now qid fetch_fn ttl entry hlook hage
    simp [get_or_fetch, hlook, hage]
  have fresh : ∀ (now : Nat) (qid : String) (fetch_fn : Unit → Except ε α)
      (ttl : Nat) (v : α), fetch_fn () = .ok v →
      get_or_fetch ([] : CacheState α) now qid fetch_fn ttl
        = (.ok v, [(qid, ⟨v, now⟩)], 1) := by
    intro now qid fetch_fn ttl v hfetch
    simp [get_or_fetch, hfetch]
  refine ⟨hit, ?_, ?_, ?_⟩
  · intro cache now qid fetch_fn ttl v hstale hfetch
    cases hlook : cache.lookup qid with
    | none => simp [get_or_fetch, hlook, hfetch]
    | some entry =>
      have hno := hstale entry hlook
      simp [get_or_fetch, hlook, hno, hfetch]
  · intro now1 now2 qid fetch_fn ttl v hfetch hage
    rw [fresh now1 qid fetch_fn ttl v hfetch]
    have hlook : List.lookup qid [(qid, (⟨v, now1⟩ : CacheEntry α))]
        = some ⟨v, now1⟩ := by simp [List.lookup]
    rw [hit [(qid, ⟨v, now1⟩)] now2 qid fetch_fn ttl ⟨v, now1⟩ hlook hage]
    exact ⟨rfl, rfl⟩
  · intro now1 now2 qid fetch_fn ttl v hfetch hexp
    rw [fresh now1 qid fetch_fn ttl v hfetch]
    have hno : ¬ now2 - now1 < ttl := Nat.not_lt.mpr hexp
    simp [get_or_fetch, List.lookup, hno, hfetch]

/-- Witness for C5: a concrete hit (age 10 < ttl 300) returns the cached
value with no fetch invocation. -/
theorem cache_get_or_fetch_contract_witness :
    List.lookup "q" [("q", (⟨42, 0⟩ : CacheEntry Nat))] = some ⟨42, 0⟩ ∧
    10 - 0 < 300 ∧
    get_or_fetch ([("q", (⟨42, 0⟩ : CacheEntry Nat))] : CacheState Nat) 10 "q"
      (fun _ => (Except.ok 7 : Except String Nat)) 300
      = (.ok 42, [("q", ⟨42, 0⟩)], 0) :=
  ⟨by decide, by decide,
    cache_get_or_fetch_contract.1 [("q", ⟨42, 0⟩)] 10 "q"
      (fun _ => (Except.ok 7 : Except String Nat)) 300 ⟨42, 0⟩ (by decide) (by decide)⟩

/-- C6: when the fetch fails on a cache miss, no entry is written (the
cache state is returned unchanged), the error propagates, and the fetch is
invoked exactly once (no retry); a subsequent call invokes the fetch
again. -/
theorem cache_fetch_error_not_written {α ε : Type}
    (cache : CacheState α) (now later : Nat) (qid : String)
    (fetch_fn : Unit → Except ε α) (ttl : Nat) (e : ε)
    (hstale : ∀ entry, cache.lookup qid = some entry → ¬ now - entry.fetchTime < ttl)
    (hlater : ∀ entry, cache.lookup qid = some entry → ¬ later - entry.fetchTime < ttl)
    (hfetch : fetch_fn () = .error e) :
    get_or_fetch cache now qid fetch_fn ttl = (.error e, cache, 1) ∧
    (get_or_fetch (get_or_fetch cache now qid fetch_fn ttl).2.1 later qid
      fetch_fn ttl).2.2 = 1 := by
  have herr : get_or_fetch cache now qid fetch_fn ttl = (.error e, cache, 1) := by
    cases hlook : cache.lookup qid with
    | none => simp [get_or_fetch, hlook, hfetch]
    | some entry =>
      have hno := hstale entry hlook
      simp [get_or_fetch, hlook, hno, hfetch]
  refine ⟨herr, ?_⟩
  rw [herr]
  cases hlook : cache.lookup qid with
  | none => simp [get_or_fetch, hlook, hfetch]
  | some entry =>
    have hno := hlater entry hlook
    simp [get_or_fetch, hlook, hno, hfetch]

/-- Witness for C6: a failing fetch on an empty cache leaves the cache
empty, propagates the error, and a second call fetches again. -/
theorem cache_fetch_error_not_written_witness :
    get_or_fetch ([] : CacheState Nat) 5 "q"
      (fun _ => (Except.error "boom" : Except String Nat)) 300
      = (.error "boom", [], 1) ∧
    (get_or_fetch
      (get_or_fetch ([] : CacheState Nat) 5 "q"
        (fun _ => (Except.error "boom" : Except String Nat)) 300).2.1 6 "q"
      (fun _ => (Except.error "boom" : Except String Nat)) 300).2.2 = 1 :=
  cache_fetch_error_not_written [] 5 6 "q"
    (fun _ => (Except.error "boom" : Except String Nat)) 300 "boom"
    (fun _ h => Option.noConfusion h) (fun _ h => Option.noConfusion h) rfl

end NGA

namespace NGA

/-- A content block of an analyst-API message, tagged `text`, `sql` or
`suggestions`; `other` stands for any unrecognised tag, which the source
loop skips. -/
inductive ContentBlock where
  | text (s : String)
  | sql (statement : String)
  | suggestions (items : List String)
  | other (tag : String)
deriving DecidableEq, Repr

/-- An analyst message: a role and its content blocks. -/
structure AnalystMessage where
  role : String
  content : List ContentBlock
deriving DecidableEq, Repr

/-- The parsed JSON body of an analyst-API response, restricted to the keys
the source reads: optional `error`, optional `message`, optional
`request_id`.  A field is `some` exactly when the key is present. -/
structure ApiResponse where
  error : Option String
  message : Option AnalystMessage
  request_id : Option String
deriving DecidableEq, Repr

/-- The dictionary built by `process_cortex_response`: each field is `some`
exactly when the source sets the corresponding key. -/
structure Processed where
  answer : Option String
  sql : Option String
  suggestions : Option (List String)
  request_id : Option String
  error : Option String
deriving DecidableEq, Repr

/-- The content-block loop of `process_cortex_response` (source lines
1434-1440): left to right, append each `text` block's text, overwrite the
SQL statement with each `sql` block's, and extend the suggestion list with
each `suggestions` block's items. -/
def loopBlocks : List String × Option String × List String → List ContentBlock →
    List String × Option String × List String
  | acc, [] => acc
  | acc, .text s :: bs => loopBlocks (acc.1 ++ [s], acc.2.1, acc.2.2) bs
  | acc, .sql st :: bs => loopBlocks (acc.1, some st, acc.2.2) bs
  | acc, .suggestions items :: bs => loopBlocks (acc.1, acc.2.1, acc.2.2 ++ items) bs
  | acc, .other _ :: bs => loopBlocks acc bs

/-- `process_cortex_response` (source lines 1417-1461): an input with an
`error` key is returned as is; a missing `message` key yields an error
descriptor; otherwise the keys `answer`, `sql` and `suggestions` are set
from the accumulated blocks exactly when their accumulated value is truthy
(non-empty), and `request_id` is carried over when present. -/
def process_cortex_response (api_response : ApiResponse) : Processed :=
  match api_response.error with
  | some e =>
      { answer := none, sql := none, suggestions := none,
        request_id := api_response.request_id, error := some e }
  | none =>
  match api_response.message with
  | none =>
      { answer := none, sql := none, suggestions := none, request_id := none,
        error := some "Invalid response format from Cortex Analyst" }
  | some msg =>
      let acc := loopBlocks ([], none, []) msg.content
      { answer := if acc.1.isEmpty then none else some (String.intercalate "\n" acc.1),
        sql := match acc.2.1 with
               | some s => if s.isEmpty then none else some s
               | none => none,
        suggestions := if acc.2.2.isEmpty then none else some acc.2.2,
        request_id := api_response.request_id,
        error := none }

/-- The texts of the `text` blocks, in order (the claim's description of
how the answer is assembled). -/
def textBlocks (blocks : List ContentBlock) : List String :=
  blocks.filterMap fun b =>
    match b with
    | .text s => some s
    | _ => none

/-- The statements of the `sql` blocks, in order. -/
def sqlBlocks (blocks : List ContentBlock) : List String :=
  blocks.filterMap fun b =>
    match b with
    | .sql s => some s
    | _ => none

/-- The item lists of the `suggestions` blocks, in order. -/
def suggestionBlocks (blocks : List ContentBlock) : List (List String) :=
  blocks.filterMap fun b =>
    match b with
    | .suggestions l => some l
    | _ => none

/-- The claim's answer field: the `text` blocks joined by newlines, absent
when there are none. -/
def specAnswer (blocks : List ContentBlock) : Option String :=
  if (textBlocks blocks).isEmpty then none
  else some (String.intercalate "\n" (textBlocks blocks))

/-- The claim's SQL field: the last `sql` block's statement, absent when
there is none (or the last one is empty). -/
def specSql (blocks : List ContentBlock) : Option String :=
  match (sqlBlocks blocks).getLast? with
  | some s => if s.isEmpty then none else some s
  | none => none

/-- The claim's suggestions field: all `suggestions` blocks concatenated,
absent when the concatenation is empty. -/
def specSuggestions (blocks : List ContentBlock) : Option (List String) :=
  if (suggestionBlocks blocks).flatten.isEmpty then none
  else some (suggestionBlocks blocks).flatten

theorem getLast?_cons_or {α : Type} (a : α) (l : List α) (o : Option α) :
    ((a :: l).getLast?).or o = (l.getLast?).or (some a) := by
  cases l with
  | nil => rfl
  | cons b l =>
    rw [List.getLast?_cons_cons]
    cases h : (b :: l).getLast? with
    | none => exact absurd h (by simp)
    | some x => rfl

/-- The source loop computes exactly the declarative block summaries. -/
theorem loopBlocks_spec (bs : List ContentBlock) :
    ∀ (t : List String) (sq : Option String) (sg : List String),
      loopBlocks (t, sq, sg) bs =
        (t ++ textBlocks bs, ((sqlBlocks bs).getLast?).or sq,
          sg ++ (suggestionBlocks bs).flatten) := by
  induction bs with
  | nil => intro t sq sg; simp [loopBlocks, textBlocks, sqlBlocks, suggestionBlocks]
  | cons b bs ih =>
    intro t sq sg
    cases b with
    | text s =>
      rw [show loopBlocks (t, sq, sg) (ContentBlock.text s :: bs)
            = loopBlocks (t ++ [s], sq, sg) bs from rfl, ih]
      simp [textBlocks, sqlBlocks, suggestionBlocks, List.filterMap_cons]
    | sql st =>
      rw [show loopBlocks (t, sq, sg) (ContentBlock.sql st :: bs)
            = loopBlocks (t, some st, sg) bs from rfl, ih]
      simp only [textBlocks, sqlBlocks, suggestionBlocks, List.filterMap_cons]
      rw [getLast?_cons_or]
    | suggestions items =>
      rw [show loopBlocks (t, sq, sg) (ContentBlock.suggestions items :: bs)
            = loopBlocks (t, sq, sg ++ items) bs from rfl, ih]
      simp [textBlocks, sqlBlocks, suggestionBlocks, List.filterMap_cons]
    | other tag =>
      rw [show loopBlocks (t, sq, sg) (ContentBlock.other tag :: bs)
            = loopBlocks (t, sq, sg) bs from rfl, ih]
      simp [textBlocks, sqlBlocks, suggestionBlocks, List.filterMap_cons]

/-- C7: for every analyst-API response, `process_cortex_response` returns
exactly one of two shapes: an error descriptor (the `error` field set) when
the input carries an `error` key or lacks a `message` key, and otherwise a
record with no `error` field whose answer is assembled from the `text`
blocks, whose SQL is the (last) `sql` block's statement and whose
suggestions collect the `suggestions` blocks.  The embedding is total, so
no exception escapes. -/
theorem cortex_two_shapes (r : ApiResponse) :
    ((process_cortex_response r).error = none ↔
      r.error = none ∧ r.message ≠ none) ∧
    (∀ msg, r.error = none → r.message = some msg →
      process_cortex_response r =
        ⟨specAnswer msg.content, specSql msg.content, specSuggestions msg.content,
         r.request_id, none⟩) := by
  obtain ⟨err, msg, rid⟩ := r
  constructor
  · cases err <;> cases msg <;> simp [process_cortex_response]
  · intro m he hm
    simp only at he hm
    subst he
    subst hm
    simp only [process_cortex_response, loopBlocks_spec, List.nil_append,
      Option.or_none, specAnswer, specSql, specSuggestions]

/-- Witness for C7: a concrete successful response with a text, a sql and a
suggestions block is processed into the assembled ok shape. -/
theorem cortex_two_shapes_witness :
    process_cortex_response
      ⟨none, some ⟨"analyst", [.text "Here", .sql "SELECT 1", .suggestions ["a"]]⟩,
       some "r1"⟩
      = ⟨some "Here", some "SELECT 1", some ["a"], some "r1", none⟩ :=
  ((cortex_two_shapes
      ⟨none, some ⟨"analyst", [.text "Here", .sql "SELECT 1", .suggestions ["a"]]⟩,
       some "r1"⟩).2
    ⟨"analyst", [.text "Here", .sql "SELECT 1", .suggestions ["a"]]⟩ rfl rfl).trans
    (by decide)

/-- A row of the one-row result of the `GET_PRESIGNED_URL` query: its
`PRESIGNED_URL` column. -/
structure PresignedRow where
  presigned_url : String
deriving DecidableEq, Repr

/-- The query text built at source line 349, embedding the object key and
the one-hour TTL. -/
def presignedUrlQuery (s3_key : String) : String :=
  "SELECT GET_PRESIGNED_URL('@s3_imagery_stage_direct', '" ++ s3_key ++
    "', 3600) as presigned_url"

/-- `get_s3_presigned_url` (source lines 345-358), with the warehouse call
abstracted as a function from query text to either an error (a raised
exception) or a row list: on an exception or an empty result it returns
`None`; otherwise the first row's `PRESIGNED_URL`. -/
def get_s3_presigned_url (session_sql : String → Except String (List PresignedRow))
    (s3_key : String) : Option String :=
  match session_sql (presignedUrlQuery s3_key) with
  | .error _ => none
  | .ok [] => none
  | .ok (r :: _) => some r.presigned_url

/-- C8: for every object key, the presigned-URL operation returns the URL
from the query's first row on success, and returns `None` rather than
raising when the underlying query raises or returns no rows. -/
theorem presigned_url_contract
    (session_sql : String → Except String (List PresignedRow)) (s3_key : String) :
    (∀ e, session_sql (presignedUrlQuery s3_key) = .error e →
      get_s3_presigned_url session_sql s3_key = none) ∧
    (session_sql (presignedUrlQuery s3_key) = .ok [] →
      get_s3_presigned_url session_sql s3_key = none) ∧
    (∀ r rest, session_sql (presignedUrlQuery s3_key) = .ok (r :: rest) →
      get_s3_presigned_url session_sql s3_key = some r.presigned_url) := by
  refine ⟨?_, ?_, ?_⟩
  · intro e h; simp [get_s3_presigned_url, h]
  · intro h; simp [get_s3_presigned_url, h]
  · intro r rest h; simp [get_s3_presigned_url, h]

/-- Witness for C8: a raising query yields `None`, and a one-row result
yields its URL. -/
theorem presigned_url_contract_witness :
    get_s3_presigned_url (fun _ => .error "SQL compilation error") "img.tif" = none ∧
    get_s3_presigned_url (fun _ => .ok [⟨"https://bucket/img?sig=x"⟩]) "img.tif"
      = some "https://bucket/img?sig=x" :=
  ⟨(presigned_url_contract (fun _ => .error "SQL compilation error") "img.tif").1
      "SQL compilation error" rfl,
   (presigned_url_contract (fun _ => .ok [⟨"https://bucket/img?sig=x"⟩]) "img.tif").2.2
      ⟨"https://bucket/img?sig=x"⟩ [] rfl⟩

end NGA

namespace NGA

/-- The transport outcome of one analyst call: either an exception raised
anywhere inside the `try` (the `_snowflake` import, the request itself, or
`json.loads`), or an HTTP status together with the parsed response body. -/
inductive ApiOutcome where
  | exn (msg : String)
  | resp (status : Nat) (content : ApiResponse)
deriving DecidableEq, Repr

/-- The user message appended to the API conversation history on success
(source lines 1398-1401). -/
def userMessage (question : String) : AnalystMessage :=
  ⟨"user", [ContentBlock.text question]⟩

/-- `call_cortex_analyst` (source lines 1349-1415), abstracted over the
transport outcome, returning the result dictionary and the new API
conversation history.  On a success status (`status < 400`) the user
question and — when the body has a `message` key — the analyst reply are
appended to the API history and the parsed body is returned; on an error
status or an exception an error descriptor is returned and the API history
is left unchanged.  (The source's error strings also interpolate the
response body's message text; the model keeps only the status, which no
claim depends on.) -/
def call_cortex_analyst (question : String) (api_history : List AnalystMessage)
    (outcome : ApiOutcome) : ApiResponse × List AnalystMessage :=
  match outcome with
  | .exn msg =>
      (⟨some ("Error calling Cortex Analyst: " ++ msg), none, none⟩, api_history)
  | .resp status content =>
      if status < 400 then
        (content,
          api_history ++ [userMessage question] ++
            (match content.message with
             | some m => [m]
             | none => []))
      else
        (⟨some ("API Error " ++ toString status), none, none⟩, api_history)

/-- An entry of the display conversation history (source lines 1619-1623):
the question and the processed result (the timestamp is omitted). -/
structure DisplayEntry where
  question : String
  result : Processed
deriving DecidableEq, Repr

/-- The submit handler (source lines 1612-1627): call the analyst, process
the result, and append question and processed result to the display
history unconditionally.  Returns the new API history and the new display
history. -/
def submitQuestion (question : String) (api_history : List AnalystMessage)
    (display_history : List DisplayEntry) (outcome : ApiOutcome) :
    List AnalystMessage × List DisplayEntry :=
  let call := call_cortex_analyst question api_history outcome
  (call.2,
    display_history ++ [⟨question, process_cortex_response call.1⟩])

/-- C10: the API-facing conversation history is extended — with the user
question and the analyst reply — only on a success status (`status < 400`);
on an error status or an exception it is unchanged, so failed attempts
never enter later analyst calls' context, while the display history records
the attempt in every case. -/
theorem api_history_only_on_success (question : String)
    (api_history : List AnalystMessage) (display_history : List DisplayEntry)
    (outcome : ApiOutcome) :
    (∀ msg, outcome = .exn msg →
      (call_cortex_analyst question api_history outcome).2 = api_history) ∧
    (∀ status content, outcome = .resp status content → 400 ≤ status →
      (call_cortex_analyst question api_history outcome).2 = api_history) ∧
    (∀ status content, outcome = .resp status content → status < 400 →
      (call_cortex_analyst question api_history outcome).2 =
        api_history ++ [userMessage question] ++
          (match content.message with
           | some m => [m]
           | none => [])) ∧
    (submitQuestion question api_history display_history outcome).2 =
      display_history ++
        [⟨question,
          process_cortex_response (call_cortex_analyst question api_history outcome).1⟩] := by
  refine ⟨?_, ?_, ?_, rfl⟩
  · rintro msg rfl
    rfl
  · rintro status content rfl hstatus
    simp [call_cortex_analyst, Nat.not_lt.mpr hstatus]
  · rintro status content rfl hstatus
    simp [call_cortex_analyst, hstatus]

/-- Witness for C10: a concrete 500-status outcome leaves the API history
unchanged while the display history records the failed attempt, and a
concrete 200-status outcome appends question and reply. -/
theorem api_history_only_on_success_witness :
    (call_cortex_analyst "how many images?" [] (.resp 500 ⟨none, none, none⟩)).2 = [] ∧
    (call_cortex_analyst "how many images?" []
        (.resp 200 ⟨none, some ⟨"analyst", [.text "42"]⟩, none⟩)).2 =
      [] ++ [userMessage "how many images?"] ++ [⟨"analyst", [.text "42"]⟩] ∧
    (submitQuestion "how many images?" [] [] (.resp 500 ⟨none, none, none⟩)).2 =
      [] ++ [⟨"how many images?",
        process_cortex_response
          (call_cortex_analyst "how many images?" [] (.resp 500 ⟨none, none, none⟩)).1⟩] :=
  ⟨(api_history_only_on_success "how many images?" [] []
      (.resp 500 ⟨none, none, none⟩)).2.1 500 ⟨none, none, none⟩ rfl (by decide),
   (api_history_only_on_success "how many images?" [] []
      (.resp 200 ⟨none, some ⟨"analyst", [.text "42"]⟩, none⟩)).2.2.1 200
      ⟨none, some ⟨"analyst", [.text "42"]⟩, none⟩ rfl (by decide),
   (api_history_only_on_success "how many images?" [] []
      (.resp 500 ⟨none, none, none⟩)).2.2.2⟩

end NGA
